import Mathlib

/-!
Verification development for the pi-ps-move-hub decode-normalize-route engine.

The definitions below are a shallow embedding of the TypeScript sources:
  - `src/evdev-reader.ts` (frame decoder, dialect detection, axis
    normalization and deadzone, hat edge tracking),
  - `src/button-map.ts` (code tables; the module version that exports
    `AMBIGUOUS_BTN_SOUTH`, `BTN_SOUTH_USB`, `BTN_SOUTH_BT`, which is the
    one `evdev-reader.ts` imports),
  - `src/server.ts` (session router: registry, active index, rotation,
    nav-event forwarding).

JavaScript numbers appearing in the sources are modelled as `Nat`/`Int`
(with explicit two-power reductions where 32/64-bit width matters), the
lossy `Number(bigint)` conversion as round-to-nearest-even at 53 mantissa
bits, and `Math.round` on the exact rational produced by the wireless
rescale formula.  `Record` caches become functions with explicit defaults
(`Option` where the source distinguishes a missing key).
-/

namespace PSMoveHub

/-! ## Constants from `src/types.ts` -/

def EV_SYN : Nat := 0x00
def EV_KEY : Nat := 0x01
def EV_ABS : Nat := 0x03

/-- The `PSNavButton` from `src/types.ts`. -/
inductive PSNavButton
  | cross
  | circle
  | l1
  | l2
  | l3
  | dpad_up
  | dpad_down
  | dpad_left
  | dpad_right
  | ps
deriving DecidableEq, Repr

/-- The `PSNavAxis` from `src/types.ts`. -/
inductive PSNavAxis
  | stick_x
  | stick_y
  | l2_analog
deriving DecidableEq, Repr

/-- The `RawInputEvent` from `src/types.ts`: one decoded kernel frame.
`timeSec`/`timeUsec` are JS numbers holding unsigned time fields, so `Nat`;
`value` is a signed 32-bit field, so `Int`. -/
structure RawInputEvent where
  timeSec : Nat
  timeUsec : Nat
  type : Nat
  code : Nat
  value : Int
deriving DecidableEq, Repr

/-! ## Code tables from `src/button-map.ts` -/

/-- The `BUTTON_MAP[EV_KEY]` from `src/button-map.ts` (non-conflicting codes:
Bluetooth hid-generic block, USB hid-sony block, and D-pad-as-button codes). -/
def BUTTON_MAP (code : Nat) : Option PSNavButton :=
  if code = 0x121 then some .l3
  else if code = 0x124 then some .dpad_up
  else if code = 0x125 then some .dpad_right
  else if code = 0x126 then some .dpad_down
  else if code = 0x127 then some .dpad_left
  else if code = 0x128 then some .l2
  else if code = 0x12a then some .l1
  else if code = 0x12d then some .circle
  else if code = 0x12e then some .cross
  else if code = 0x131 then some .circle
  else if code = 0x136 then some .l1
  else if code = 0x138 then some .l2
  else if code = 0x13c then some .ps
  else if code = 0x13d then some .l3
  else if code = 0x220 then some .dpad_up
  else if code = 0x221 then some .dpad_down
  else if code = 0x222 then some .dpad_left
  else if code = 0x223 then some .dpad_right
  else none

def AMBIGUOUS_BTN_SOUTH : Nat := 0x130
def BTN_SOUTH_USB : PSNavButton := .cross
def BTN_SOUTH_BT : PSNavButton := .ps

/-- The `AXIS_MAP[EV_ABS]` from `src/button-map.ts`. -/
def AXIS_MAP (code : Nat) : Option PSNavAxis :=
  if code = 0x00 then some .stick_x
  else if code = 0x01 then some .stick_y
  else if code = 0x02 then some .l2_analog
  else none

/-- A `{neg, pos}` entry of `DPAD_AXIS_MAP`. -/
structure DpadMapping where
  neg : PSNavButton
  pos : PSNavButton
deriving DecidableEq, Repr

/-- The `DPAD_AXIS_MAP` from `src/button-map.ts` (ABS_HAT0X / ABS_HAT0Y). -/
def DPAD_AXIS_MAP (code : Nat) : Option DpadMapping :=
  if code = 0x10 then some ⟨.dpad_left, .dpad_right⟩
  else if code = 0x11 then some ⟨.dpad_up, .dpad_down⟩
  else none

/-! ## Semantic events (`PSNavEvent` from `src/types.ts`) -/

/-- The `PSNavButtonEvent` / `PSNavAxisEvent` union. Timestamps are the
`Date.now()` millisecond values passed through unchanged. -/
inductive PSNavEvent
  | button (button : PSNavButton) (pressed : Bool) (timestamp : Nat)
  | axis (axis : PSNavAxis) (value : Int) (timestamp : Nat)
deriving DecidableEq, Repr

/-! ## Reader session state (`EvdevReader` fields, `src/evdev-reader.ts`) -/

/-- The `inputMode` field of `EvdevReader`. -/
inductive InputMode
  | unknown
  | usb
  | bluetooth
deriving DecidableEq, Repr

/-- The per-session mutable fields of `EvdevReader` that the decode
pipeline reads and writes: `inputMode`, `dpadState` (missing key reads as
0 via the source's `?? 0`), and `lastStickValue` (missing key is
`undefined`, modelled as `none`). -/
structure ReaderState where
  inputMode : InputMode
  dpadState : Nat → Int
  lastStickValue : PSNavAxis → Option Int

/-- Fresh session state: fields as initialized in the class body. -/
def initialReaderState : ReaderState :=
  { inputMode := .unknown
  , dpadState := fun _ => 0
  , lastStickValue := fun _ => none }

def DEADZONE_MIN : Int := 118
def DEADZONE_MAX : Int := 138
def DEADZONE_CENTER : Int := 128

/-- The `Math.round(((value + 127) / 254) * 255)` from `mapAndEmit`:
JS `Math.round` rounds half toward positive infinity, i.e. `⌊x + 1/2⌋`. -/
def btRescale (value : Int) : Int :=
  ⌊(((value : ℚ) + 127) / 254) * 255 + 1/2⌋

/-- The `Math.max(0, Math.min(255, value))` from `mapAndEmit`. -/
def clamp255 (value : Int) : Int := max 0 (min 255 value)

/-- The deadzone clamp from `mapAndEmit`: values in
`[DEADZONE_MIN, DEADZONE_MAX]` are replaced by `DEADZONE_CENTER`. -/
def applyDeadzone (value : Int) : Int :=
  if DEADZONE_MIN ≤ value ∧ value ≤ DEADZONE_MAX then DEADZONE_CENTER else value

/-- The full axis-value pipeline of `mapAndEmit` steps 2-4 (dialect
rescale, clamp, deadzone), as a function of the current mode. Used in
theorem statements; `mapAndEmit` below inlines the same expressions in
source order. -/
def normalizedAxisValue (mode : InputMode) (raw : Int) : Int :=
  applyDeadzone (clamp255 (if mode = .bluetooth then btRescale raw else raw))

/-- The auto-detection block at the top of `mapAndEmit`
(`src/evdev-reader.ts` lines 176-190): the mode a session is in after
inspecting `raw`, given it was in `s.inputMode` before. -/
def detectMode (s : ReaderState) (raw : RawInputEvent) : InputMode :=
  if s.inputMode = .unknown then
    if raw.type = EV_ABS ∧ raw.value < 0 then .bluetooth
    else if raw.type = EV_ABS ∧ raw.value > 127 then .usb
    else if raw.type = EV_KEY ∧ 0x121 ≤ raw.code ∧ raw.code ≤ 0x12e then .bluetooth
    else if raw.type = EV_KEY ∧ 0x131 ≤ raw.code ∧ raw.code ≤ 0x13d then .usb
    else .unknown
  else s.inputMode

/-- The `handleDpadAxis` from `src/evdev-reader.ts`: reads the previous hat
value (`?? 0`), stores the new one, emits release for the previous
direction then press for the new direction. Returns the updated state and
the emitted events in emission order. -/
def handleDpadAxis (s : ReaderState) (raw : RawInputEvent) (now : Nat) :
    ReaderState × List PSNavEvent :=
  match DPAD_AXIS_MAP raw.code with
  | none => (s, [])
  | some mapping =>
    let prev := s.dpadState raw.code
    let s1 : ReaderState :=
      { s with dpadState := fun c => if c = raw.code then raw.value else s.dpadState c }
    let releases : List PSNavEvent :=
      if prev < 0 then [.button mapping.neg false now]
      else if prev > 0 then [.button mapping.pos false now]
      else []
    let presses : List PSNavEvent :=
      if raw.value < 0 then [.button mapping.neg true now]
      else if raw.value > 0 then [.button mapping.pos true now]
      else []
    (s1, releases ++ presses)

/-- The `mapAndEmit` from `src/evdev-reader.ts`: skip EV_SYN, run dialect
auto-detection, then the button / ambiguous-BTN_SOUTH / hat / axis
branches. Returns the updated session state and the `nav` events emitted
for this frame, in emission order. `now` is the frame's `Date.now()`. -/
def mapAndEmit (s0 : ReaderState) (raw : RawInputEvent) (now : Nat) :
    ReaderState × List PSNavEvent :=
  if raw.type = EV_SYN then (s0, [])
  else
    let mode := detectMode s0 raw
    let s : ReaderState := { s0 with inputMode := mode }
    if raw.type = EV_KEY then
      if raw.code = AMBIGUOUS_BTN_SOUTH then
        let button := if mode = .usb then BTN_SOUTH_USB else BTN_SOUTH_BT
        (s, [.button button (decide (raw.value ≠ 0)) now])
      else
        match BUTTON_MAP raw.code with
        | some b => (s, [.button b (decide (raw.value ≠ 0)) now])
        | none => (s, [])
    else if raw.type = EV_ABS then
      match DPAD_AXIS_MAP raw.code with
      | some _ => handleDpadAxis s raw now
      | none =>
        match AXIS_MAP raw.code with
        | some axis =>
          let value0 := if mode = .bluetooth then btRescale raw.value else raw.value
          let value1 := clamp255 value0
          let clamped :=
            if DEADZONE_MIN ≤ value1 ∧ value1 ≤ DEADZONE_MAX then DEADZONE_CENTER
            else value1
          if s.lastStickValue axis = some clamped then (s, [])
          else
            ({ s with lastStickValue :=
                 fun a => if a = axis then some clamped else s.lastStickValue a },
             [.axis axis clamped now])
        | none => (s, [])
    else (s, [])

/-- Process a list of frames (each paired with its `Date.now()` value)
through `mapAndEmit`, starting from `s`, concatenating the emitted events
in order: the read loop's successive `mapAndEmit` calls for one session. -/
def processFrames (s : ReaderState) : List (RawInputEvent × Nat) → ReaderState × List PSNavEvent
  | [] => (s, [])
  | (raw, now) :: rest =>
    let out := mapAndEmit s raw now
    let tail := processFrames out.1 rest
    (tail.1, out.2 ++ tail.2)

/-! ## Session router (`src/server.ts`) -/

/-- The `RegisteredClient` from `src/types.ts`. -/
structure RegisteredClient where
  socketId : String
  serviceName : String
  registeredAt : Nat
deriving DecidableEq, Repr

/-- The router's mutable module-level state in `src/server.ts`:
`registeredClients` (insertion order) and `activeIndex` (`-1` = none). -/
structure RouterState where
  registeredClients : List RegisteredClient
  activeIndex : Int
deriving DecidableEq, Repr

/-- The state at server start: empty registry, `activeIndex = -1`. -/
def initialRouterState : RouterState := ⟨[], -1⟩

/-- A connected socket as the router sees it: its id and its
`socket.data.serviceName` (`none` = never registered). -/
structure ConnectedSocket where
  id : String
  serviceName : Option String
deriving DecidableEq, Repr

/-- The `ClientListInfo` from `src/types.ts`: the registry snapshot that
`broadcastClientList` sends. -/
structure ClientListInfo where
  clients : List RegisteredClient
  activeIndex : Int
  activeServiceName : Option String
deriving DecidableEq, Repr

/-- The `registeredClients[i]` for a JS (possibly negative) index. -/
def clientAt (clients : List RegisteredClient) (i : Int) : Option RegisteredClient :=
  if 0 ≤ i then clients.get? i.toNat else none

/-- The `getClientListInfo` from `src/server.ts`. -/
def getClientListInfo (s : RouterState) : ClientListInfo :=
  { clients := s.registeredClients
  , activeIndex := s.activeIndex
  , activeServiceName :=
      if 0 ≤ s.activeIndex then (clientAt s.registeredClients s.activeIndex).map (·.serviceName)
      else none }

/-- The `getActiveSocket` from `src/server.ts`: `null` when `activeIndex` is
out of range, otherwise the connected socket whose id is the active
entry's `socketId` (or `null` if that socket is gone). -/
def getActiveSocket (s : RouterState) (sockets : List ConnectedSocket) :
    Option ConnectedSocket :=
  if 0 ≤ s.activeIndex ∧ s.activeIndex < (s.registeredClients.length : Int) then
    match clientAt s.registeredClients s.activeIndex with
    | some entry => sockets.find? (fun sock => sock.id = entry.socketId)
    | none => none
  else none

/-- The `getUnregisteredSockets` from `src/server.ts`: sockets whose
`data.serviceName` is unset. -/
def getUnregisteredSockets (sockets : List ConnectedSocket) : List ConnectedSocket :=
  sockets.filter (fun sock => sock.serviceName = none)

/-- The observable emissions of the router operations: `client:activated`
and `client:deactivated` to one socket, and the `client:list` broadcast. -/
inductive RouterOutput
  | activated (socketId serviceName : String)
  | deactivated (socketId serviceName : String)
  | broadcastList (info : ClientListInfo)
deriving DecidableEq, Repr

/-- Does a `RouterOutput` carry the registry snapshot broadcast? -/
def RouterOutput.isBroadcast : RouterOutput → Bool
  | .broadcastList _ => true
  | _ => false

/-- The `Array.prototype.findIndex` on the registry by `socketId`. -/
def findClientIdx (clients : List RegisteredClient) (socketId : String) : Option Nat :=
  match clients with
  | [] => none
  | c :: rest =>
    if c.socketId = socketId then some 0
    else (findClientIdx rest socketId).map (· + 1)

/-- JavaScript `%` on integers: remainder with the sign of the dividend. -/
def jsRem (a b : Int) : Int :=
  if 0 ≤ a then a % b else -((-a) % b)

/-- The `registerClient` from `src/server.ts`: update the name in place when
the socket is already registered, else append; if the registry length is 1
after that, set `activeIndex := 0` and emit `client:activated` to the
registering socket; always broadcast the list. -/
def registerClient (s : RouterState) (socketId serviceName : String) (now : Nat) :
    RouterState × List RouterOutput :=
  let clients :=
    match findClientIdx s.registeredClients socketId with
    | some i =>
      s.registeredClients.mapIdx
        (fun j c => if j = i then { c with serviceName := serviceName } else c)
    | none => s.registeredClients ++ [⟨socketId, serviceName, now⟩]
  if clients.length = 1 then
    let s1 : RouterState := ⟨clients, 0⟩
    (s1, [.activated socketId serviceName, .broadcastList (getClientListInfo s1)])
  else
    let s1 : RouterState := ⟨clients, s.activeIndex⟩
    (s1, [.broadcastList (getClientListInfo s1)])

/-- The `unregisterClient` from `src/server.ts`: no-op (and no broadcast) when
the id is not registered; otherwise splice the entry out and adjust
`activeIndex` (wrap via `%` when the active entry left, decrement when an
earlier entry left), emitting `client:activated` to the new active socket
when one exists, then broadcast. -/
def unregisterClient (s : RouterState) (sockets : List ConnectedSocket)
    (socketId : String) : RouterState × List RouterOutput :=
  match findClientIdx s.registeredClients socketId with
  | none => (s, [])
  | some idx =>
    let clients := s.registeredClients.eraseIdx idx
    if clients.length = 0 then
      let s1 : RouterState := ⟨clients, -1⟩
      (s1, [.broadcastList (getClientListInfo s1)])
    else if (idx : Int) = s.activeIndex then
      let s1 : RouterState := ⟨clients, jsRem s.activeIndex (clients.length : Int)⟩
      let acts : List RouterOutput :=
        match getActiveSocket s1 sockets, clientAt s1.registeredClients s1.activeIndex with
        | some sock, some entry => [.activated sock.id entry.serviceName]
        | _, _ => []
      (s1, acts ++ [.broadcastList (getClientListInfo s1)])
    else if (idx : Int) < s.activeIndex then
      let s1 : RouterState := ⟨clients, s.activeIndex - 1⟩
      (s1, [.broadcastList (getClientListInfo s1)])
    else
      let s1 : RouterState := ⟨clients, s.activeIndex⟩
      (s1, [.broadcastList (getClientListInfo s1)])

/-- The `cycleActiveClient` from `src/server.ts`: no-op on an empty registry;
otherwise emit `client:deactivated` to the current active socket (when it
exists and `activeIndex ≥ 0`), advance `activeIndex` by one modulo the
registry length, emit `client:activated` to the new active socket (when it
exists), then broadcast. -/
def cycleActiveClient (s : RouterState) (sockets : List ConnectedSocket) :
    RouterState × List RouterOutput :=
  if s.registeredClients.length = 0 then (s, [])
  else
    let deacts : List RouterOutput :=
      match getActiveSocket s sockets with
      | some sock =>
        if 0 ≤ s.activeIndex then
          match clientAt s.registeredClients s.activeIndex with
          | some entry => [.deactivated sock.id entry.serviceName]
          | none => []
        else []
      | none => []
    let s1 : RouterState :=
      ⟨s.registeredClients, jsRem (s.activeIndex + 1) (s.registeredClients.length : Int)⟩
    let acts : List RouterOutput :=
      match getActiveSocket s1 sockets, clientAt s1.registeredClients s1.activeIndex with
      | some sock, some entry => [.activated sock.id entry.serviceName]
      | _, _ => []
    (s1, deacts ++ acts ++ [.broadcastList (getClientListInfo s1)])

/-- The `emitNavEvent` from `src/server.ts`: deliver the event to the active
registered socket (when there is one) and to every unregistered
(always-on) socket. Returns `(socketId, event)` deliveries in order. -/
def emitNavEvent (s : RouterState) (sockets : List ConnectedSocket)
    (e : PSNavEvent) : List (String × PSNavEvent) :=
  (match getActiveSocket s sockets with
   | some sock => [(sock.id, e)]
   | none => []) ++
  (getUnregisteredSockets sockets).map (fun sock => (sock.id, e))

/-- The `reader.on('nav', ...)` handler in `startEvdevReader`
(`src/server.ts` lines 335-348): a `ps` button event with `pressed`
cycles the active client and is not forwarded; every other event goes
through `emitNavEvent`. Returns the updated router state, the router
emissions, and the nav-event deliveries. -/
def handleNavEvent (s : RouterState) (sockets : List ConnectedSocket)
    (e : PSNavEvent) : RouterState × List RouterOutput × List (String × PSNavEvent) :=
  match e with
  | .button b pressed _ts =>
    if b = .ps ∧ pressed = true then
      let out := cycleActiveClient s sockets
      (out.1, out.2, [])
    else (s, [], emitNavEvent s sockets e)
  | .axis _ _ _ => (s, [], emitNavEvent s sockets e)

/-- The router operations whose sequencing matters for reachability:
`register` (from the `register` socket message), `unregister` (socket
disconnect), `cycleActive` (`ps` press or mock timer). The registry state
transition of each is independent of the connected-socket set, which only
determines the emissions, so `applyOp` runs them with no sockets. -/
inductive RouterOp
  | register (socketId serviceName : String) (now : Nat)
  | unregister (socketId : String)
  | cycle
deriving DecidableEq, Repr

/-- The state component of one router operation. -/
def applyOp (s : RouterState) : RouterOp → RouterState
  | .register socketId serviceName now => (registerClient s socketId serviceName now).1
  | .unregister socketId => (unregisterClient s [] socketId).1
  | .cycle => (cycleActiveClient s []).1

/-- Run a sequence of router operations from the initial (empty) state. -/
def runOps (ops : List RouterOp) : RouterState :=
  ops.foldl applyOp initialRouterState

/-! ## Frame decoder (`parseEvent`, `src/evdev-reader.ts`)

A byte buffer is a `List Nat` whose entries are below 256. Little-endian
integer reads (`readBigUInt64LE`, `readUInt32LE`, `readUInt16LE`,
`readInt32LE`) are `readLE` over byte slices; the signed 32-bit read
reinterprets the top bit. `Number(bigint)` is round-to-nearest-even at 53
mantissa bits (`jsNumberOfNat`), exactly the conversion of a JS `BigInt`
to a double for the `u64` time fields of the wide layout. -/

/-- Little-endian value of a byte list. -/
def readLE : List Nat → Nat
  | [] => 0
  | b :: rest => b + 256 * readLE rest

/-- Little-endian encoding of `v` on `n` bytes. -/
def writeLE : Nat → Nat → List Nat
  | 0, _ => []
  | n + 1, v => v % 256 :: writeLE n (v / 256)

/-- JS `Number(bigint)` for a nonnegative integer: exact below `2^53`,
otherwise round to the nearest multiple of the float spacing
`2 ^ (⌊log2 n⌋ - 52)`, ties to the even significand. -/
def jsNumberOfNat (n : Nat) : Nat :=
  if n < 2 ^ 53 then n
  else
    let spacing := 2 ^ (Nat.log2 n - 52)
    let q := n / spacing
    let r := n % spacing
    if 2 * r < spacing then q * spacing
    else if 2 * r > spacing then (q + 1) * spacing
    else if q % 2 = 0 then q * spacing else (q + 1) * spacing

/-- The `readInt32LE`: the unsigned 4-byte value reinterpreted as signed. -/
def toSigned32 (u : Nat) : Int :=
  if u < 2 ^ 31 then (u : Int) else (u : Int) - 2 ^ 32

/-- The 64-bit (`is32bit = false`) arm of `parseEvent`: wide 24-byte
layout, `u64` time fields read through `Number(buf.readBigUInt64LE(...))`. -/
def parseEvent64 (buf : List Nat) : RawInputEvent :=
  { timeSec := jsNumberOfNat (readLE (buf.take 8))
  , timeUsec := jsNumberOfNat (readLE ((buf.drop 8).take 8))
  , type := readLE ((buf.drop 16).take 2)
  , code := readLE ((buf.drop 18).take 2)
  , value := toSigned32 (readLE ((buf.drop 20).take 4)) }

/-- The 32-bit (`is32bit = true`) arm of `parseEvent`: narrow 16-byte
layout, `u32` time fields read with `readUInt32LE` (exact JS numbers). -/
def parseEvent32 (buf : List Nat) : RawInputEvent :=
  { timeSec := readLE (buf.take 4)
  , timeUsec := readLE ((buf.drop 4).take 4)
  , type := readLE ((buf.drop 8).take 2)
  , code := readLE ((buf.drop 10).take 2)
  , value := toSigned32 (readLE ((buf.drop 12).take 4)) }

/-- A signed 32-bit value as its unsigned 4-byte representative. -/
def toUnsigned32 (v : Int) : Nat := (v % (2 ^ 32 : Int)).toNat

/-- Modelled from the spec (§6 frame layout; the repository has no
encoder): re-encode the five fields of a frame at the wide 24-byte
layout — seconds and microseconds as u64 LE, type and code as u16 LE,
value as i32 LE. -/
def encodeEvent64 (e : RawInputEvent) : List Nat :=
  writeLE 8 e.timeSec ++ writeLE 8 e.timeUsec ++
  writeLE 2 e.type ++ writeLE 2 e.code ++ writeLE 4 (toUnsigned32 e.value)

/-- Modelled from the spec (§6 frame layout): re-encode the five fields
at the narrow 16-byte layout — seconds and microseconds as u32 LE. -/
def encodeEvent32 (e : RawInputEvent) : List Nat :=
  writeLE 4 e.timeSec ++ writeLE 4 e.timeUsec ++
  writeLE 2 e.type ++ writeLE 2 e.code ++ writeLE 4 (toUnsigned32 e.value)

/-! ## Statement-side helpers -/

/-- The release events the hat tracker owes for a previous hat value. -/
def hatReleases (m : DpadMapping) (prev : Int) (now : Nat) : List PSNavEvent :=
  if prev < 0 then [.button m.neg false now]
  else if prev > 0 then [.button m.pos false now]
  else []

/-- The press events the hat tracker owes for a new hat value. -/
def hatPresses (m : DpadMapping) (v : Int) (now : Nat) : List PSNavEvent :=
  if v < 0 then [.button m.neg true now]
  else if v > 0 then [.button m.pos true now]
  else []

/-- The values of the axis events for axis `a` in an event list, in order. -/
def axisValues (a : PSNavAxis) (evs : List PSNavEvent) : List Int :=
  evs.filterMap (fun e =>
    match e with
    | .axis a2 v _ => if a2 = a then some v else none
    | .button _ _ _ => none)

/-- Last element of a value list, with a fallback for the empty list. -/
def lastVal (c : Option Int) : List Int → Option Int
  | [] => c
  | v :: rest => lastVal (some v) rest

/-- A value list has no element equal to its predecessor, where the
predecessor of the first element is the optional seed `c`. -/
def sepChain (c : Option Int) : List Int → Prop
  | [] => True
  | v :: rest => c ≠ some v ∧ sepChain (some v) rest

/-! ## Lemmas about the reader pipeline -/

theorem handleDpadAxis_inputMode (s : ReaderState) (raw : RawInputEvent) (now : Nat) :
    ((handleDpadAxis s raw now).1).inputMode = s.inputMode := by
  unfold handleDpadAxis
  cases DPAD_AXIS_MAP raw.code <;> rfl

theorem handleDpadAxis_lastStickValue (s : ReaderState) (raw : RawInputEvent) (now : Nat) :
    ((handleDpadAxis s raw now).1).lastStickValue = s.lastStickValue := by
  unfold handleDpadAxis
  cases DPAD_AXIS_MAP raw.code <;> rfl

/-- The session mode after one frame is exactly what the detection block
computes (the rest of `mapAndEmit` never writes `inputMode`). -/
theorem mapAndEmit_inputMode (s : ReaderState) (raw : RawInputEvent) (now : Nat) :
    ((mapAndEmit s raw now).1).inputMode =
      if raw.type = EV_SYN then s.inputMode else detectMode s raw := by
  unfold mapAndEmit
  repeat' (first | split | dsimp only)
  all_goals first | rfl | rw [handleDpadAxis_inputMode]

/-- Detection never changes an already-determined mode. -/
theorem detectMode_of_known (s : ReaderState) (raw : RawInputEvent)
    (h : s.inputMode ≠ .unknown) : detectMode s raw = s.inputMode := by
  unfold detectMode
  simp [h]

/-- One frame cannot move a determined mode. -/
theorem mapAndEmit_mode_frozen (s : ReaderState) (raw : RawInputEvent) (now : Nat)
    (h : s.inputMode ≠ .unknown) :
    ((mapAndEmit s raw now).1).inputMode = s.inputMode := by
  rw [mapAndEmit_inputMode]
  split
  · rfl
  · exact detectMode_of_known s raw h

/-- C4: For every device session and every sequence of incoming frames,
once the session's ConnectionMode has transitioned from Unknown to Wired
(`usb`) or Wireless (`bluetooth`), processing any subsequent frames of
that session leaves the mode unchanged, whatever those frames carry. -/
theorem connection_mode_frozen (s : ReaderState) (frames : List (RawInputEvent × Nat))
    (h : s.inputMode ≠ .unknown) :
    ((processFrames s frames).1).inputMode = s.inputMode := by
  induction frames generalizing s with
  | nil => rfl
  | cons f rest ih =>
    obtain ⟨raw, now⟩ := f
    show ((processFrames (mapAndEmit s raw now).1 rest).1).inputMode = s.inputMode
    have h1 : ((mapAndEmit s raw now).1).inputMode = s.inputMode :=
      mapAndEmit_mode_frozen s raw now h
    rw [ih _ (by rw [h1]; exact h), h1]

/-- Witness for C4: a session already in USB mode stays in USB mode across
a frame that carries Bluetooth-style evidence (a negative axis value). -/
theorem connection_mode_frozen_witness :
    ({ initialReaderState with inputMode := .usb } : ReaderState).inputMode ≠ .unknown ∧
    ((processFrames { initialReaderState with inputMode := .usb }
        [(⟨0, 0, 3, 0, -100⟩, 7)]).1).inputMode = InputMode.usb :=
  ⟨by decide,
   connection_mode_frozen { initialReaderState with inputMode := .usb }
     [(⟨0, 0, 3, 0, -100⟩, 7)] (by decide)⟩

/-- C6: For a tracked hat-axis code with recorded previous value `prev`,
the tracker emits release(negative) if `prev < 0`, release(positive) if
`prev > 0`, then press(negative)/press(positive) by the sign of the new
value, and nothing else, recording the new value; hence with `prev = 0`
the value `-1` emits exactly press(negative) and then (now with
`prev = -1`) the value `0` emits exactly release(negative) with no press
of the positive button, and the direct flip from `prev = -1` to `+1`
emits exactly release(negative) then press(positive) in that order. -/
theorem hat_edge_tracker (s : ReaderState) (r : RawInputEvent) (m : DpadMapping)
    (now : Nat) (hm : DPAD_AXIS_MAP r.code = some m) :
    ((handleDpadAxis s r now).2
        = hatReleases m (s.dpadState r.code) now ++ hatPresses m r.value now)
    ∧ ((handleDpadAxis s r now).1.dpadState r.code = r.value)
    ∧ (s.dpadState r.code = 0 → r.value = -1 →
        (handleDpadAxis s r now).2 = [.button m.neg true now])
    ∧ (s.dpadState r.code = -1 → r.value = 0 →
        (handleDpadAxis s r now).2 = [.button m.neg false now])
    ∧ (s.dpadState r.code = -1 → r.value = 1 →
        (handleDpadAxis s r now).2 = [.button m.neg false now, .button m.pos true now]) := by
  refine ⟨?_, ?_, ?_, ?_, ?_⟩
  · unfold handleDpadAxis hatReleases hatPresses
    rw [hm]
  · unfold handleDpadAxis
    rw [hm]
    simp
  · intro h0 hv
    unfold handleDpadAxis
    rw [hm]
    simp [h0, hv]
  · intro h0 hv
    unfold handleDpadAxis
    rw [hm]
    norm_num [h0, hv]
  · intro h0 hv
    unfold handleDpadAxis
    rw [hm]
    norm_num [h0, hv]

/-- Witness for C6: the ABS_HAT0X mapping at the `0 → -1 → 0` first step
from a fresh session emits exactly press(dpad_left). -/
theorem hat_edge_tracker_witness :
    DPAD_AXIS_MAP 0x10 = some ⟨.dpad_left, .dpad_right⟩ ∧
    (handleDpadAxis initialReaderState ⟨0, 0, 3, 0x10, -1⟩ 5).2
       = [.button .dpad_left true 5] :=
  ⟨by decide,
   (hat_edge_tracker initialReaderState ⟨0, 0, 3, 0x10, -1⟩
      ⟨.dpad_left, .dpad_right⟩ 5 (by decide)).2.2.1 (by decide) (by decide)⟩

/-- What `mapAndEmit` does on a mapped, non-hat axis frame: detect the
mode, push the raw value through rescale/clamp/deadzone, and emit exactly
when the result differs from the cache. -/
theorem mapAndEmit_axis_branch (s : ReaderState) (r : RawInputEvent) (now : Nat)
    (axis : PSNavAxis) (ht : r.type = EV_ABS)
    (hd : DPAD_AXIS_MAP r.code = none) (ha : AXIS_MAP r.code = some axis) :
    mapAndEmit s r now =
      (let mode := detectMode s r
       let clamped := normalizedAxisValue mode r.value
       if s.lastStickValue axis = some clamped then
         ({ s with inputMode := mode }, [])
       else
         ({ s with
              inputMode := mode,
              lastStickValue :=
                fun a => if a = axis then some clamped else s.lastStickValue a },
          [.axis axis clamped now])) := by
  unfold mapAndEmit normalizedAxisValue applyDeadzone
  rw [ht]
  norm_num [EV_SYN, EV_KEY, EV_ABS, hd, ha]

/-- C8: For every mapped, non-hat axis frame whose normalized, clamped
value lies in the inclusive deadzone range `[118, 138]` (whether the raw
value passed through as Wired/Unknown or was rescaled as Wireless), any
axis event emitted for that frame carries the value exactly 128. -/
theorem deadzone_centers_to_128 (s : ReaderState) (r : RawInputEvent) (now : Nat)
    (axis : PSNavAxis) (ht : r.type = EV_ABS)
    (hd : DPAD_AXIS_MAP r.code = none) (ha : AXIS_MAP r.code = some axis)
    (hlo : DEADZONE_MIN ≤
      clamp255 (if detectMode s r = .bluetooth then btRescale r.value else r.value))
    (hhi : clamp255 (if detectMode s r = .bluetooth then btRescale r.value else r.value)
      ≤ DEADZONE_MAX) :
    (mapAndEmit s r now).2 = [] ∨
    (mapAndEmit s r now).2 = [.axis axis 128 now] := by
  rw [mapAndEmit_axis_branch s r now axis ht hd ha]
  have hn : normalizedAxisValue (detectMode s r) r.value = 128 := by
    unfold normalizedAxisValue applyDeadzone
    rw [if_pos ⟨hlo, hhi⟩]
    rfl
  dsimp only
  rw [hn]
  split
  · exact Or.inl rfl
  · exact Or.inr rfl

/-- Witness for C8: a fresh session receiving a wired-range stick_x frame
with raw value 130 (inside the deadzone) emits the canonical center 128. -/
theorem deadzone_centers_to_128_witness :
    ((⟨0, 0, 3, 0, 130⟩ : RawInputEvent).type = EV_ABS ∧
      DPAD_AXIS_MAP 0 = none ∧ AXIS_MAP 0 = some .stick_x ∧
      DEADZONE_MIN ≤ clamp255 (if detectMode initialReaderState ⟨0, 0, 3, 0, 130⟩
          = .bluetooth then btRescale 130 else 130) ∧
      clamp255 (if detectMode initialReaderState ⟨0, 0, 3, 0, 130⟩
          = .bluetooth then btRescale 130 else 130) ≤ DEADZONE_MAX) ∧
    ((mapAndEmit initialReaderState ⟨0, 0, 3, 0, 130⟩ 9).2 = [] ∨
      (mapAndEmit initialReaderState ⟨0, 0, 3, 0, 130⟩ 9).2 = [.axis .stick_x 128 9]) :=
  ⟨⟨by decide, by decide, by decide, by decide, by decide⟩,
   deadzone_centers_to_128 initialReaderState ⟨0, 0, 3, 0, 130⟩ 9 .stick_x
     (by decide) (by decide) (by decide) (by decide) (by decide)⟩

/-- C10: Dialect detection runs before code mapping within a single
frame: from Unknown, a mapped non-hat axis frame with a negative value
both sets the session mode to Wireless and is itself decoded under the
Wireless formula — any event it emits carries the rescaled (then clamped
and deadzoned) value, not the Wired/Unknown passthrough. -/
theorem detection_before_mapping (s : ReaderState) (r : RawInputEvent) (now : Nat)
    (axis : PSNavAxis) (hu : s.inputMode = .unknown) (ht : r.type = EV_ABS)
    (hv : r.value < 0) (hd : DPAD_AXIS_MAP r.code = none)
    (ha : AXIS_MAP r.code = some axis) :
    ((mapAndEmit s r now).1.inputMode = .bluetooth) ∧
    ((mapAndEmit s r now).2 = [] ∨
      (mapAndEmit s r now).2
        = [.axis axis (applyDeadzone (clamp255 (btRescale r.value))) now]) := by
  have hm : detectMode s r = .bluetooth := by
    unfold detectMode
    rw [if_pos hu, if_pos ⟨ht, hv⟩]
  constructor
  · rw [mapAndEmit_inputMode]
    rw [if_neg (by rw [ht]; decide), hm]
  · rw [mapAndEmit_axis_branch s r now axis ht hd ha]
    dsimp only
    rw [hm]
    have hval : normalizedAxisValue InputMode.bluetooth r.value
        = applyDeadzone (clamp255 (btRescale r.value)) := by
      unfold normalizedAxisValue
      norm_num
    rw [hval]
    by_cases hc :
        s.lastStickValue axis = some (applyDeadzone (clamp255 (btRescale r.value)))
    · rw [if_pos hc]
      exact Or.inl rfl
    · rw [if_neg hc]
      exact Or.inr rfl

/-- Witness for C10: the first frame of a fresh session carrying
stick_x raw value −100 sets Wireless mode and emits the rescaled value
27 (not the clamped passthrough 0). -/
theorem detection_before_mapping_witness :
    (initialReaderState.inputMode = .unknown ∧
      (⟨0, 0, 3, 0, -100⟩ : RawInputEvent).type = EV_ABS ∧
      ((-100 : Int) < 0) ∧ DPAD_AXIS_MAP 0 = none ∧ AXIS_MAP 0 = some .stick_x) ∧
    ((mapAndEmit initialReaderState ⟨0, 0, 3, 0, -100⟩ 7).1.inputMode = .bluetooth ∧
     ((mapAndEmit initialReaderState ⟨0, 0, 3, 0, -100⟩ 7).2 = [] ∨
      (mapAndEmit initialReaderState ⟨0, 0, 3, 0, -100⟩ 7).2
        = [.axis .stick_x (applyDeadzone (clamp255 (btRescale (-100)))) 7])) :=
  ⟨⟨by decide, by decide, by decide, by decide, by decide⟩,
   detection_before_mapping initialReaderState ⟨0, 0, 3, 0, -100⟩ 7 .stick_x
     (by decide) (by decide) (by decide) (by decide) (by decide)⟩

/-- Counterexample to C1: with one registered, active consumer "A", the
release half of a physical `ps` press (`pressed = false`) is forwarded to
"A" as a button event — the handler only consumes the `pressed = true`
event, so the `ps` release does reach consumers. -/
theorem ps_release_forwarded_counterexample :
    (handleNavEvent ⟨[⟨"A", "svc", 0⟩], 0⟩ [⟨"A", some "svc"⟩]
        (.button .ps false 5)).2.2
      = [("A", .button .ps false 5)] := by
  decide

/-- C1 (amended): a `ps` button event with `pressed = true` is consumed
internally — it triggers `cycleActiveClient` and is delivered to no
consumer — while the corresponding release event (`pressed = false`) is
forwarded through `emitNavEvent` like any other button event. -/
theorem ps_press_consumed (s : RouterState) (sockets : List ConnectedSocket) (ts : Nat) :
    ((handleNavEvent s sockets (.button .ps true ts)).2.2 = []) ∧
    ((handleNavEvent s sockets (.button .ps true ts)).1
        = (cycleActiveClient s sockets).1) ∧
    ((handleNavEvent s sockets (.button .ps true ts)).2.1
        = (cycleActiveClient s sockets).2) ∧
    ((handleNavEvent s sockets (.button .ps false ts)).2.2
        = emitNavEvent s sockets (.button .ps false ts)) := by
  refine ⟨?_, ?_, ?_, ?_⟩ <;> simp [handleNavEvent]

/-- Counterexample to C3: unregistering an id that was never registered
(here "B", with only "A" registered) returns without emitting anything —
in particular, no registry-snapshot broadcast happens on that call. -/
theorem unregister_unknown_no_broadcast_counterexample :
    unregisterClient ⟨[⟨"A", "svc", 0⟩], 0⟩ [⟨"A", some "svc"⟩] "B"
      = (⟨[⟨"A", "svc", 0⟩], 0⟩, []) := by
  decide

/-- C3 (amended): `unregisterClient` broadcasts the updated registry
snapshot exactly when the consumer id was registered: an unknown id is a
complete no-op with no emissions at all, while a registered id always
produces a trailing `client:list` broadcast carrying the updated state. -/
theorem unregister_broadcast (s : RouterState) (sockets : List ConnectedSocket)
    (socketId : String) :
    (findClientIdx s.registeredClients socketId = none →
      unregisterClient s sockets socketId = (s, [])) ∧
    (findClientIdx s.registeredClients socketId ≠ none →
      ((unregisterClient s sockets socketId).2).getLast?
        = some (.broadcastList (getClientListInfo (unregisterClient s sockets socketId).1))) := by
  constructor
  · intro h
    unfold unregisterClient
    rw [h]
  · intro h
    obtain ⟨idx, hidx⟩ := Option.ne_none_iff_exists'.mp h
    unfold unregisterClient
    rw [hidx]
    dsimp only
    split
    · rfl
    · split
      · rcases hms : getActiveSocket
            ⟨(s.registeredClients.eraseIdx idx),
              jsRem s.activeIndex ((s.registeredClients.eraseIdx idx).length : Int)⟩ sockets with
          _ | sock
        · simp [hms]
        · rcases hme : clientAt (s.registeredClients.eraseIdx idx)
              (jsRem s.activeIndex ((s.registeredClients.eraseIdx idx).length : Int)) with
            _ | entry
          · simp [hms, hme]
          · simp [hms, hme]
      · split
        · rfl
        · rfl

/-- Witness for C3 (amended): the no-op arm at an unknown id "B" and the
broadcast arm at the registered id "A". -/
theorem unregister_broadcast_witness :
    (unregisterClient ⟨[⟨"A", "svc", 0⟩], 0⟩ [⟨"A", some "svc"⟩] "B"
        = (⟨[⟨"A", "svc", 0⟩], 0⟩, [])) ∧
    ((unregisterClient ⟨[⟨"A", "svc", 0⟩], 0⟩ [⟨"A", some "svc"⟩] "A").2.getLast?
        = some (.broadcastList (getClientListInfo
            (unregisterClient ⟨[⟨"A", "svc", 0⟩], 0⟩ [⟨"A", some "svc"⟩] "A").1))) :=
  ⟨(unregister_broadcast ⟨[⟨"A", "svc", 0⟩], 0⟩ [⟨"A", some "svc"⟩] "B").1 (by decide),
   (unregister_broadcast ⟨[⟨"A", "svc", 0⟩], 0⟩ [⟨"A", some "svc"⟩] "A").2 (by decide)⟩

/-- The `findIndex` only returns in-range indices. -/
theorem findClientIdx_lt_length (clients : List RegisteredClient) (socketId : String)
    (i : Nat) (h : findClientIdx clients socketId = some i) : i < clients.length := by
  induction clients generalizing i with
  | nil => exact absurd h (by simp [findClientIdx])
  | cons c rest ih =>
    unfold findClientIdx at h
    by_cases hc : c.socketId = socketId
    · rw [if_pos hc] at h
      cases h
      simp
    · rw [if_neg hc] at h
      rcases hrest : findClientIdx rest socketId with _ | j
      · rw [hrest] at h
        cases h
      · rw [hrest] at h
        cases h
        have := ih j hrest
        simp only [List.length_cons]
        omega

/-- JS `%` on a nonnegative dividend and positive divisor stays in
`[0, divisor)`. -/
theorem jsRem_bounds (a b : Int) (ha : 0 ≤ a) (hb : 0 < b) :
    0 ≤ jsRem a b ∧ jsRem a b < b := by
  unfold jsRem
  rw [if_pos ha]
  exact ⟨Int.emod_nonneg a (ne_of_gt hb), Int.emod_lt_of_pos a hb⟩

/-- C5: When `unregisterClient` removes the active entry from a registry
that keeps at least one entry, the new `activeIndex` is the old index
wrapped modulo the shrunken length, the entry now active is the next one
in insertion order (the entry at `idx + 1`, wrapping to the entry at 0
when the removed entry was last), and that entry's socket receives
`client:activated`; when it removes an entry strictly before the active
one, `activeIndex` decrements and the same registry entry stays active;
in particular register("A"), register("B"), unregister("A") while "A" is
active leaves "B" active with `activeIndex = 0` and an activation sent
to "B". -/
theorem unregister_rotation (s : RouterState) (sockets : List ConnectedSocket)
    (socketId : String) (idx : Nat)
    (hfind : findClientIdx s.registeredClients socketId = some idx) :
    ((idx : Int) = s.activeIndex → 2 ≤ s.registeredClients.length →
      (unregisterClient s sockets socketId).1.activeIndex
          = jsRem (idx : Int) ((s.registeredClients.length : Int) - 1)
      ∧ clientAt (unregisterClient s sockets socketId).1.registeredClients
            (unregisterClient s sockets socketId).1.activeIndex
          = (if idx + 1 < s.registeredClients.length
             then s.registeredClients.get? (idx + 1)
             else s.registeredClients.get? 0)
      ∧ (∀ entry sock,
          clientAt (unregisterClient s sockets socketId).1.registeredClients
              (unregisterClient s sockets socketId).1.activeIndex = some entry →
          getActiveSocket (unregisterClient s sockets socketId).1 sockets = some sock →
          RouterOutput.activated sock.id entry.serviceName
            ∈ (unregisterClient s sockets socketId).2))
    ∧ ((idx : Int) < s.activeIndex →
        s.activeIndex < (s.registeredClients.length : Int) →
        (unregisterClient s sockets socketId).1.activeIndex = s.activeIndex - 1
        ∧ clientAt (unregisterClient s sockets socketId).1.registeredClients
              (s.activeIndex - 1)
            = clientAt s.registeredClients s.activeIndex)
    ∧ (unregisterClient
          (registerClient (registerClient initialRouterState "A" "svcA" 10).1
              "B" "svcB" 20).1
          [⟨"A", some "svcA"⟩, ⟨"B", some "svcB"⟩] "A"
        = (⟨[⟨"B", "svcB", 20⟩], 0⟩,
           [.activated "B" "svcB",
            .broadcastList ⟨[⟨"B", "svcB", 20⟩], 0, some "svcB"⟩])) := by
  have hlt : idx < s.registeredClients.length :=
    findClientIdx_lt_length _ _ _ hfind
  have hlenE : (s.registeredClients.eraseIdx idx).length
      = s.registeredClients.length - 1 := by
    rw [List.length_eraseIdx]
    exact if_pos hlt
  refine ⟨?_, ?_, by decide⟩
  · intro hact hlen
    have h0 : ¬ ((s.registeredClients.eraseIdx idx).length = 0) := by omega
    have hcast : (((s.registeredClients.eraseIdx idx).length : Nat) : Int)
        = (s.registeredClients.length : Int) - 1 := by
      omega
    unfold unregisterClient
    rw [hfind]
    dsimp only
    rw [if_neg h0, if_pos hact]
    dsimp only
    rw [← hact, hcast]
    refine ⟨rfl, ?_, ?_⟩
    · rcases Nat.lt_or_ge (idx + 1) s.registeredClients.length with hnext | hlast
      · -- the removed entry was not last: no wrap
        have hidxlt : (idx : Int) < (s.registeredClients.length : Int) - 1 := by omega
        have hrem : jsRem (idx : Int) ((s.registeredClients.length : Int) - 1)
            = (idx : Int) := by
          unfold jsRem
          rw [if_pos (by positivity)]
          exact Int.emod_eq_of_lt (by positivity) hidxlt
        rw [hrem, if_pos hnext]
        unfold clientAt
        rw [if_pos (by positivity)]
        rw [List.get?_eq_getElem?, List.get?_eq_getElem?, List.getElem?_eraseIdx]
        rw [if_neg (by omega)]
        norm_num
      · -- the removed entry was last: wrap to index 0
        have hlast' : idx + 1 = s.registeredClients.length := by omega
        have hrem : jsRem (idx : Int) ((s.registeredClients.length : Int) - 1)
            = 0 := by
          unfold jsRem
          rw [if_pos (by positivity)]
          have : ((s.registeredClients.length : Int) - 1) = (idx : Int) := by omega
          rw [this]
          exact Int.emod_self
        rw [hrem, if_neg (by omega)]
        unfold clientAt
        rw [if_pos le_rfl]
        rw [List.get?_eq_getElem?, List.get?_eq_getElem?, List.getElem?_eraseIdx]
        rw [if_pos (by omega)]
        rfl
    · intro entry sock hentry hsock
      rw [hsock, hentry]
      exact List.mem_append_left _ (List.mem_singleton.mpr rfl)
  · intro hblt hbvalid
    have h0 : ¬ ((s.registeredClients.eraseIdx idx).length = 0) := by omega
    unfold unregisterClient
    rw [hfind]
    dsimp only
    rw [if_neg h0, if_neg (by omega), if_pos hblt]
    refine ⟨rfl, ?_⟩
    unfold clientAt
    rw [if_pos (by omega), if_pos (by omega)]
    rw [List.get?_eq_getElem?, List.get?_eq_getElem?, List.getElem?_eraseIdx]
    rw [if_neg (by omega)]
    congr 1
    omega

/-- Witness for C5: the register("A"), register("B"), unregister("A")
scenario instantiating the theorem, with the active-removal arm checked
at that concrete registry. -/
theorem unregister_rotation_witness :
    (findClientIdx (registerClient (registerClient initialRouterState "A" "svcA" 10).1
        "B" "svcB" 20).1.registeredClients "A" = some 0) ∧
    (unregisterClient
        (registerClient (registerClient initialRouterState "A" "svcA" 10).1
            "B" "svcB" 20).1
        [⟨"A", some "svcA"⟩, ⟨"B", some "svcB"⟩] "A"
      = (⟨[⟨"B", "svcB", 20⟩], 0⟩,
         [.activated "B" "svcB",
          .broadcastList ⟨[⟨"B", "svcB", 20⟩], 0, some "svcB"⟩])) :=
  ⟨by decide,
   (unregister_rotation
      (registerClient (registerClient initialRouterState "A" "svcA" 10).1
          "B" "svcB" 20).1
      [⟨"A", some "svcA"⟩, ⟨"B", some "svcB"⟩] "A" 0 (by decide)).2.2⟩

/-! ## The router's activeIndex invariant (C9) -/

/-- The strengthened registry invariant: `activeIndex` is `-1` exactly on
the empty registry and otherwise a valid index. -/
def RouterInv (s : RouterState) : Prop :=
  (s.registeredClients.length = 0 → s.activeIndex = -1) ∧
  (0 < s.registeredClients.length →
    0 ≤ s.activeIndex ∧ s.activeIndex < (s.registeredClients.length : Int))

theorem registerClient_inv (s : RouterState) (socketId serviceName : String)
    (now : Nat) (h : RouterInv s) :
    RouterInv (registerClient s socketId serviceName now).1 := by
  obtain ⟨h0, h1⟩ := h
  unfold registerClient
  rcases hfind : findClientIdx s.registeredClients socketId with _ | i
  · -- new registration: append
    have hlen : (s.registeredClients
          ++ [(⟨socketId, serviceName, now⟩ : RegisteredClient)]).length
        = s.registeredClients.length + 1 := by simp
    dsimp only
    split <;> rename_i hone <;> dsimp only [RouterInv]
    · exact ⟨by omega, fun _ => by omega⟩
    · rw [hlen] at hone
      have hpos : 0 < s.registeredClients.length := by omega
      obtain ⟨ha, hb⟩ := h1 hpos
      exact ⟨by omega, fun _ => ⟨ha, by omega⟩⟩
  · -- already registered: in-place rename, same length
    have hlen : (s.registeredClients.mapIdx
        (fun j c => if j = i then { c with serviceName := serviceName } else c)).length
        = s.registeredClients.length := List.length_mapIdx
    have hpos : 0 < s.registeredClients.length := by
      have := findClientIdx_lt_length _ _ _ hfind
      omega
    obtain ⟨ha, hb⟩ := h1 hpos
    dsimp only
    split <;> rename_i hone <;> dsimp only [RouterInv]
    · exact ⟨by omega, fun _ => by omega⟩
    · exact ⟨fun hz => by omega, fun _ => ⟨ha, by omega⟩⟩

theorem unregisterClient_inv (s : RouterState) (sockets : List ConnectedSocket)
    (socketId : String) (h : RouterInv s) :
    RouterInv (unregisterClient s sockets socketId).1 := by
  obtain ⟨h0, h1⟩ := h
  unfold unregisterClient
  rcases hfind : findClientIdx s.registeredClients socketId with _ | idx
  · exact ⟨h0, h1⟩
  · have hlt : idx < s.registeredClients.length :=
      findClientIdx_lt_length _ _ _ hfind
    have hlenE : (s.registeredClients.eraseIdx idx).length
        = s.registeredClients.length - 1 := by
      rw [List.length_eraseIdx]
      exact if_pos hlt
    obtain ⟨ha, hb⟩ := h1 (by omega)
    dsimp only
    split
    · rename_i hzero
      dsimp only [RouterInv]
      exact ⟨fun _ => rfl, fun hpos => by omega⟩
    · rename_i hne
      split
      · rename_i hact
        dsimp only [RouterInv]
        refine ⟨by omega, fun _ => ?_⟩
        have := jsRem_bounds s.activeIndex ((s.registeredClients.eraseIdx idx).length : Int)
          (by omega) (by exact_mod_cast Nat.pos_of_ne_zero hne)
        exact this
      · rename_i hact
        split
        · rename_i hdec
          dsimp only [RouterInv]
          refine ⟨by omega, fun _ => ⟨by omega, ?_⟩⟩
          have hcast : (((s.registeredClients.eraseIdx idx).length : Nat) : Int)
              = (s.registeredClients.length : Int) - 1 := by omega
          rw [hcast]
          omega
        · rename_i hdec
          dsimp only [RouterInv]
          refine ⟨by omega, fun _ => ⟨ha, ?_⟩⟩
          have hgt : s.activeIndex < (idx : Int) := by omega
          have hcast : (((s.registeredClients.eraseIdx idx).length : Nat) : Int)
              = (s.registeredClients.length : Int) - 1 := by omega
          rw [hcast]
          omega

theorem cycleActiveClient_inv (s : RouterState) (sockets : List ConnectedSocket)
    (h : RouterInv s) : RouterInv (cycleActiveClient s sockets).1 := by
  obtain ⟨h0, h1⟩ := h
  unfold cycleActiveClient
  split
  · exact ⟨h0, h1⟩
  · rename_i hne
    obtain ⟨ha, hb⟩ := h1 (Nat.pos_of_ne_zero hne)
    dsimp only [RouterInv]
    refine ⟨by omega, fun _ => ?_⟩
    exact jsRem_bounds (s.activeIndex + 1) (s.registeredClients.length : Int)
      (by omega) (by exact_mod_cast Nat.pos_of_ne_zero hne)

theorem applyOp_inv (s : RouterState) (op : RouterOp) (h : RouterInv s) :
    RouterInv (applyOp s op) := by
  cases op with
  | register socketId serviceName now => exact registerClient_inv s socketId serviceName now h
  | unregister socketId => exact unregisterClient_inv s [] socketId h
  | cycle => exact cycleActiveClient_inv s [] h

theorem foldl_applyOp_inv (ops : List RouterOp) (s : RouterState) (h : RouterInv s) :
    RouterInv (ops.foldl applyOp s) := by
  induction ops generalizing s with
  | nil => exact h
  | cons op rest ih => exact ih (applyOp s op) (applyOp_inv s op h)

/-- C9: From the empty registry, after any sequence of register,
unregister and cycleActive operations, `activeIndex = -1` exactly when
the registry is empty, and a non-empty registry always has
`activeIndex ∈ [0, len-1]` — one active consumer, strictly stronger than
the spec's `activeIndex ∈ [-1, len-1]`. -/
theorem router_active_index_invariant (ops : List RouterOp) :
    ((runOps ops).registeredClients = [] ↔ (runOps ops).activeIndex = -1) ∧
    ((runOps ops).registeredClients ≠ [] →
      0 ≤ (runOps ops).activeIndex ∧
      (runOps ops).activeIndex ≤ ((runOps ops).registeredClients.length : Int) - 1) := by
  have hinv : RouterInv (runOps ops) :=
    foldl_applyOp_inv ops initialRouterState ⟨fun _ => rfl, by simp [initialRouterState]⟩
  obtain ⟨h0, h1⟩ := hinv
  constructor
  · constructor
    · intro he
      exact h0 (by rw [he]; rfl)
    · intro hai
      by_contra hne
      have hpos : 0 < (runOps ops).registeredClients.length :=
        List.length_pos.mpr hne
      obtain ⟨hge, _⟩ := h1 hpos
      omega
  · intro hne
    have hpos : 0 < (runOps ops).registeredClients.length :=
      List.length_pos.mpr hne
    obtain ⟨hge, hlt⟩ := h1 hpos
    exact ⟨hge, by omega⟩

/-! ## Axis change suppression (C7) -/

theorem axisValues_append (a : PSNavAxis) (l1 l2 : List PSNavEvent) :
    axisValues a (l1 ++ l2) = axisValues a l1 ++ axisValues a l2 := by
  unfold axisValues
  exact List.filterMap_append l1 l2 _

/-- The hat tracker emits no axis events. -/
theorem axisValues_handleDpadAxis (s : ReaderState) (r : RawInputEvent) (now : Nat)
    (a : PSNavAxis) : axisValues a (handleDpadAxis s r now).2 = [] := by
  unfold handleDpadAxis
  repeat' (first | split | dsimp only)
  all_goals simp [axisValues]

theorem axisValues_single_other (a ax : PSNavAxis) (v : Int) (t : Nat) (h : ¬ a = ax) :
    axisValues a [PSNavEvent.axis ax v t] = [] := by
  simp [axisValues]
  exact fun hq => h hq.symm

theorem axisValues_single_same (a : PSNavAxis) (v : Int) (t : Nat) :
    axisValues a [PSNavEvent.axis a v t] = [v] := by
  simp [axisValues]

/-- One frame either leaves the axis-`a` cache alone and emits no axis-`a`
event, or emits exactly one axis-`a` event whose value differs from the
cache and becomes the new cache. -/
theorem mapAndEmit_axis_step (s : ReaderState) (r : RawInputEvent) (now : Nat)
    (a : PSNavAxis) :
    (axisValues a (mapAndEmit s r now).2 = []
      ∧ (mapAndEmit s r now).1.lastStickValue a = s.lastStickValue a)
    ∨ (∃ v, axisValues a (mapAndEmit s r now).2 = [v]
      ∧ s.lastStickValue a ≠ some v
      ∧ (mapAndEmit s r now).1.lastStickValue a = some v) := by
  unfold mapAndEmit
  repeat' (first | split | dsimp only)
  all_goals try (refine Or.inl ⟨axisValues_handleDpadAxis _ _ _ _, ?_⟩ <;>
    rw [handleDpadAxis_lastStickValue])
  all_goals try (refine Or.inl ⟨?_, rfl⟩; simp [axisValues]; done)
  -- remaining: the emitting arms of the axis branch, split on whether the
  -- emitted axis is the observed one
  all_goals rename_i hEq
  all_goals try subst hEq
  all_goals try (exact Or.inl ⟨axisValues_single_other _ _ _ _ hEq, rfl⟩)
  all_goals (right; refine ⟨_, axisValues_single_same _ _ _, ?_, rfl⟩)
  all_goals assumption

/-- Chained distinctness with a seed implies adjacent distinctness. -/
theorem sepChain_chain (l : List Int) (c : Option Int) (h : sepChain c l) :
    List.Chain' (fun x y => x ≠ y) l := by
  induction l generalizing c with
  | nil => exact List.chain'_nil
  | cons v rest ih =>
    obtain ⟨hne, hrest⟩ := h
    cases rest with
    | nil => exact List.chain'_singleton v
    | cons w t =>
      rw [List.chain'_cons]
      exact ⟨fun hvw => hrest.1 (by rw [hvw]), ih (some v) hrest⟩

/-- Across a whole session, the axis-`a` values emitted from state `s`
form a `sepChain` seeded at the cache, and the final cache is the last
emitted value (or the seed if none was emitted). -/
theorem processFrames_sep (frames : List (RawInputEvent × Nat)) :
    ∀ (s : ReaderState) (a : PSNavAxis),
    sepChain (s.lastStickValue a) (axisValues a (processFrames s frames).2)
    ∧ (processFrames s frames).1.lastStickValue a
        = lastVal (s.lastStickValue a) (axisValues a (processFrames s frames).2) := by
  induction frames with
  | nil => exact fun s a => ⟨trivial, rfl⟩
  | cons f rest ih =>
    intro s a
    obtain ⟨raw, now⟩ := f
    have hstep := mapAndEmit_axis_step s raw now a
    have hrec := ih (mapAndEmit s raw now).1 a
    show sepChain (s.lastStickValue a)
        (axisValues a ((mapAndEmit s raw now).2
          ++ (processFrames (mapAndEmit s raw now).1 rest).2))
      ∧ (processFrames (mapAndEmit s raw now).1 rest).1.lastStickValue a
        = lastVal (s.lastStickValue a)
            (axisValues a ((mapAndEmit s raw now).2
              ++ (processFrames (mapAndEmit s raw now).1 rest).2))
    rw [axisValues_append]
    rcases hstep with ⟨he, hc⟩ | ⟨v, he, hne, hc⟩
    · rw [he, List.nil_append]
      rw [hc] at hrec
      exact hrec
    · rw [he, List.cons_append, List.nil_append]
      rw [hc] at hrec
      exact ⟨⟨hne, hrec.1⟩, hrec.2⟩

/-- C7: In a single device session started fresh, no two consecutive
axis events for the same axis carry the same value, and the per-axis
cache always holds the last emitted post-deadzone value (none before the
first emission); `mapAndEmit_axis_step` shows an event is emitted exactly
when the new post-deadzone value differs from the cache. -/
theorem axis_change_suppression (frames : List (RawInputEvent × Nat)) (a : PSNavAxis) :
    List.Chain' (fun x y => x ≠ y)
      (axisValues a (processFrames initialReaderState frames).2)
    ∧ (processFrames initialReaderState frames).1.lastStickValue a
        = lastVal none (axisValues a (processFrames initialReaderState frames).2) := by
  have h := processFrames_sep frames initialReaderState a
  exact ⟨sepChain_chain _ _ h.1, h.2⟩

/-! ## Frame decode/encode round-trip (C2) -/

theorem writeLE_readLE (bs : List Nat) (h : ∀ b ∈ bs, b < 256) :
    writeLE bs.length (readLE bs) = bs := by
  induction bs with
  | nil => rfl
  | cons b rest ih =>
    have hb : b < 256 := h b (List.mem_cons_self b rest)
    have hrest := ih (fun x hx => h x (List.mem_cons_of_mem b hx))
    show writeLE (rest.length + 1) (b + 256 * readLE rest) = b :: rest
    unfold writeLE
    congr 1
    · rw [Nat.add_mul_mod_self_left, Nat.mod_eq_of_lt hb]
    · rw [Nat.add_mul_div_left _ _ (by norm_num), Nat.div_eq_of_lt hb, Nat.zero_add]
      exact hrest

theorem readLE_lt (bs : List Nat) (h : ∀ b ∈ bs, b < 256) :
    readLE bs < 256 ^ bs.length := by
  induction bs with
  | nil => simp [readLE]
  | cons b rest ih =>
    have hb : b < 256 := h b (List.mem_cons_self b rest)
    have hr := ih (fun x hx => h x (List.mem_cons_of_mem b hx))
    show b + 256 * readLE rest < 256 ^ (rest.length + 1)
    have hp : (256 : Nat) ^ (rest.length + 1) = 256 ^ rest.length * 256 :=
      pow_succ 256 rest.length
    rw [hp]
    omega

theorem jsNumberOfNat_small (n : Nat) (h : n < 2 ^ 53) : jsNumberOfNat n = n := by
  unfold jsNumberOfNat
  rw [if_pos h]

theorem toSigned_toUnsigned (u : Nat) (h : u < 2 ^ 32) :
    toUnsigned32 (toSigned32 u) = u := by
  unfold toSigned32 toUnsigned32
  split <;> omega

/-- Round-trip of one little-endian field slice. -/
theorem writeLE_readLE_slice (bs : List Nat) (n : Nat) (hlen : bs.length = n)
    (h : ∀ b ∈ bs, b < 256) : writeLE n (readLE bs) = bs := by
  rw [← hlen]
  exact writeLE_readLE bs h

/-- C2 (amended): decoding a valid frame buffer and re-encoding the five
fields at the same layout reproduces the bytes exactly — unconditionally
for the narrow 16-byte layout, and for the wide 24-byte layout whenever
the seconds and microseconds fields are below `2^53` (the values exactly
representable in the JS number the decoder converts them to). -/
theorem frame_roundtrip (buf : List Nat) :
    (buf.length = 24 → (∀ b ∈ buf, b < 256) →
      readLE (buf.take 8) < 2 ^ 53 → readLE ((buf.drop 8).take 8) < 2 ^ 53 →
      encodeEvent64 (parseEvent64 buf) = buf)
    ∧ (buf.length = 16 → (∀ b ∈ buf, b < 256) →
      encodeEvent32 (parseEvent32 buf) = buf) := by
  constructor
  · intro hlen hbytes hs hu
    have hmem : ∀ (k j : Nat) (b : Nat), b ∈ (buf.drop k).take j → b < 256 :=
      fun k j b hb => hbytes b (List.mem_of_mem_drop (List.mem_of_mem_take hb))
    have hmem0 : ∀ b ∈ buf.take 8, b < 256 :=
      fun b hb => hbytes b (List.mem_of_mem_take hb)
    have l0 : (buf.take 8).length = 8 := by
      rw [List.length_take]
      omega
    have l8 : ((buf.drop 8).take 8).length = 8 := by
      rw [List.length_take, List.length_drop]
      omega
    have l16 : ((buf.drop 16).take 2).length = 2 := by
      rw [List.length_take, List.length_drop]
      omega
    have l18 : ((buf.drop 18).take 2).length = 2 := by
      rw [List.length_take, List.length_drop]
      omega
    have l20 : ((buf.drop 20).take 4).length = 4 := by
      rw [List.length_take, List.length_drop]
      omega
    unfold parseEvent64 encodeEvent64
    dsimp only
    rw [jsNumberOfNat_small _ hs, jsNumberOfNat_small _ hu]
    rw [writeLE_readLE_slice _ _ l0 hmem0]
    rw [writeLE_readLE_slice _ _ l8 (hmem 8 8)]
    rw [writeLE_readLE_slice _ _ l16 (hmem 16 2)]
    rw [writeLE_readLE_slice _ _ l18 (hmem 18 2)]
    have hv : readLE ((buf.drop 20).take 4) < 2 ^ 32 := by
      have := readLE_lt ((buf.drop 20).take 4) (hmem 20 4)
      rw [l20] at this
      norm_num at this
      omega
    rw [toSigned_toUnsigned _ hv]
    rw [writeLE_readLE_slice _ _ l20 (hmem 20 4)]
    -- reassemble the slices into the original buffer
    have k20 : buf.drop 20 = (buf.drop 18).drop 2 := by
      rw [List.drop_drop]
    have k18 : buf.drop 18 = (buf.drop 16).drop 2 := by
      rw [List.drop_drop]
    have k16 : buf.drop 16 = (buf.drop 8).drop 8 := by
      rw [List.drop_drop]
    have t20 : (buf.drop 20).take 4 = buf.drop 20 := by
      apply List.take_of_length_le
      rw [List.length_drop]
      omega
    simp only [List.append_assoc]
    rw [t20, k20, List.take_append_drop, k18, List.take_append_drop,
      k16, List.take_append_drop, List.take_append_drop]
  · intro hlen hbytes
    have hmem : ∀ (k j : Nat) (b : Nat), b ∈ (buf.drop k).take j → b < 256 :=
      fun k j b hb => hbytes b (List.mem_of_mem_drop (List.mem_of_mem_take hb))
    have hmem0 : ∀ b ∈ buf.take 4, b < 256 :=
      fun b hb => hbytes b (List.mem_of_mem_take hb)
    have l0 : (buf.take 4).length = 4 := by
      rw [List.length_take]
      omega
    have l4 : ((buf.drop 4).take 4).length = 4 := by
      rw [List.length_take, List.length_drop]
      omega
    have l8 : ((buf.drop 8).take 2).length = 2 := by
      rw [List.length_take, List.length_drop]
      omega
    have l10 : ((buf.drop 10).take 2).length = 2 := by
      rw [List.length_take, List.length_drop]
      omega
    have l12 : ((buf.drop 12).take 4).length = 4 := by
      rw [List.length_take, List.length_drop]
      omega
    unfold parseEvent32 encodeEvent32
    dsimp only
    rw [writeLE_readLE_slice _ _ l0 hmem0]
    rw [writeLE_readLE_slice _ _ l4 (hmem 4 4)]
    rw [writeLE_readLE_slice _ _ l8 (hmem 8 2)]
    rw [writeLE_readLE_slice _ _ l10 (hmem 10 2)]
    have hv : readLE ((buf.drop 12).take 4) < 2 ^ 32 := by
      have := readLE_lt ((buf.drop 12).take 4) (hmem 12 4)
      rw [l12] at this
      norm_num at this
      omega
    rw [toSigned_toUnsigned _ hv]
    rw [writeLE_readLE_slice _ _ l12 (hmem 12 4)]
    have k12 : buf.drop 12 = (buf.drop 10).drop 2 := by
      rw [List.drop_drop]
    have k10 : buf.drop 10 = (buf.drop 8).drop 2 := by
      rw [List.drop_drop]
    have k8 : buf.drop 8 = (buf.drop 4).drop 4 := by
      rw [List.drop_drop]
    have t12 : (buf.drop 12).take 4 = buf.drop 12 := by
      apply List.take_of_length_le
      rw [List.length_drop]
      omega
    simp only [List.append_assoc]
    rw [t12, k12, List.take_append_drop, k10, List.take_append_drop,
      k8, List.take_append_drop, List.take_append_drop]

/-- Witness for C2 (amended): a concrete 24-byte wide frame and a
concrete 16-byte narrow frame that round-trip exactly. -/
theorem frame_roundtrip_witness :
    (encodeEvent64 (parseEvent64
        [1, 2, 3, 4, 5, 6, 7, 0, 9, 8, 7, 6, 5, 4, 3, 0,
         3, 0, 0, 0, 254, 255, 255, 255])
      = [1, 2, 3, 4, 5, 6, 7, 0, 9, 8, 7, 6, 5, 4, 3, 0,
         3, 0, 0, 0, 254, 255, 255, 255])
    ∧ (encodeEvent32 (parseEvent32
        [1, 2, 3, 4, 5, 6, 7, 8, 1, 0, 48, 1, 1, 0, 0, 0])
      = [1, 2, 3, 4, 5, 6, 7, 8, 1, 0, 48, 1, 1, 0, 0, 0]) :=
  ⟨(frame_roundtrip
      [1, 2, 3, 4, 5, 6, 7, 0, 9, 8, 7, 6, 5, 4, 3, 0,
       3, 0, 0, 0, 254, 255, 255, 255]).1
      (by decide) (by decide) (by decide) (by decide),
   (frame_roundtrip
      [1, 2, 3, 4, 5, 6, 7, 8, 1, 0, 48, 1, 1, 0, 0, 0]).2
      (by decide) (by decide)⟩

/-- Counterexample to C2: a valid 24-byte wide frame whose seconds field
is `2^53 + 1` does not round-trip — `Number(BigInt)` rounds the seconds
to `2^53` (53-bit mantissa), so re-encoding changes byte 0 from 1 to 0. -/
theorem frame_roundtrip_counterexample :
    ([1, 0, 0, 0, 0, 0, 32, 0, 0, 0, 0, 0, 0, 0, 0, 0,
      3, 0, 0, 0, 5, 0, 0, 0] : List Nat).length = 24
    ∧ (∀ b ∈ ([1, 0, 0, 0, 0, 0, 32, 0, 0, 0, 0, 0, 0, 0, 0, 0,
        3, 0, 0, 0, 5, 0, 0, 0] : List Nat), b < 256)
    ∧ encodeEvent64 (parseEvent64
        [1, 0, 0, 0, 0, 0, 32, 0, 0, 0, 0, 0, 0, 0, 0, 0,
         3, 0, 0, 0, 5, 0, 0, 0])
      ≠ [1, 0, 0, 0, 0, 0, 32, 0, 0, 0, 0, 0, 0, 0, 0, 0,
         3, 0, 0, 0, 5, 0, 0, 0] := by
  refine ⟨rfl, by decide, ?_⟩
  have hlog : Nat.log2 (2 ^ 53 + 1) = 53 := by
    rw [Nat.log2_eq_log_two]
    exact Nat.log_eq_of_pow_le_of_lt_pow (by norm_num) (by norm_num)
  have hjs : jsNumberOfNat (2 ^ 53 + 1) = 2 ^ 53 := by
    unfold jsNumberOfNat
    rw [if_neg (by norm_num), hlog]
    norm_num
  have hS : readLE (([1, 0, 0, 0, 0, 0, 32, 0, 0, 0, 0, 0, 0, 0, 0, 0,
      3, 0, 0, 0, 5, 0, 0, 0] : List Nat).take 8) = 2 ^ 53 + 1 := by decide
  have hdec : parseEvent64
      [1, 0, 0, 0, 0, 0, 32, 0, 0, 0, 0, 0, 0, 0, 0, 0,
       3, 0, 0, 0, 5, 0, 0, 0]
      = ⟨2 ^ 53, 0, 3, 0, 5⟩ := by
    have hU : readLE ((([1, 0, 0, 0, 0, 0, 32, 0, 0, 0, 0, 0, 0, 0, 0, 0,
        3, 0, 0, 0, 5, 0, 0, 0] : List Nat).drop 8).take 8) = 0 := by decide
    unfold parseEvent64
    rw [hS, hjs, hU, jsNumberOfNat_small 0 (by norm_num)]
    decide
  intro heq
  rw [hdec] at heq
  exact absurd heq (by decide)

end PSMoveHub
